import Mathlib

/-!
Shallow embedding of the recipe-management REST backend.

The repository ships `app/user/serializers.py` and the API test suites;
the model classes (`core/models.py`), the recipe serializers and the view
classes are not part of the sources, so those operations are modelled from
the specification, as indicated in each doc comment.

Machine model: the persistent store is an explicit `DB` value threaded
through every operation; HTTP outcomes are `Except ApiError` results.
-/

namespace RecipeApp

/-- An account record.  Modelled from the spec: §3 User — identity (unique
email), display name, credential (the model class is not in `src/`; the
credential is kept abstract as the string checked by authentication). -/
structure User where
  id : Nat
  email : String
  password : String
  name : String
deriving Repr, DecidableEq

/-- Modelled from the spec: §3 Tag — name plus owning-user reference. -/
structure Tag where
  id : Nat
  userId : Nat
  name : String
deriving Repr, DecidableEq

/-- Modelled from the spec: §3 Ingredient — name plus owning-user reference. -/
structure Ingredient where
  id : Nat
  userId : Nat
  name : String
deriving Repr, DecidableEq

/-- Modelled from the spec: §3 Recipe — title, time estimate, price, optional
image reference, owning user, and many-to-many id sets of tags and
ingredients. -/
structure Recipe where
  id : Nat
  userId : Nat
  title : String
  timeMinutes : Nat
  price : Nat
  tags : List Nat
  ingredients : List Nat
  image : Option String
deriving Repr, DecidableEq

/-- The persistent store: relational tables plus the image file store
(§6 Persisted state). -/
structure DB where
  users : List User
  tags : List Tag
  ingredients : List Ingredient
  recipes : List Recipe
  files : List String
deriving Repr, DecidableEq

/-- Error taxonomy of §7: validation errors (400), authentication errors
(400/401) and not-found errors (404). -/
inductive ApiError where
  | notFound
  | validation
  | authentication
deriving Repr, DecidableEq

/-- Descending-name order used by the tag and ingredient list endpoints. -/
def tagDescName (a b : Tag) : Prop := b.name ≤ a.name

instance : DecidableRel tagDescName := fun a b =>
  inferInstanceAs (Decidable (b.name ≤ a.name))

instance : IsTotal Tag tagDescName := ⟨fun a b => le_total b.name a.name⟩

instance : IsTrans Tag tagDescName := ⟨fun _ _ _ h h2 => le_trans h2 h⟩

/-- Descending-name order on ingredients. -/
def ingredientDescName (a b : Ingredient) : Prop := b.name ≤ a.name

instance : DecidableRel ingredientDescName := fun a b =>
  inferInstanceAs (Decidable (b.name ≤ a.name))

instance : IsTotal Ingredient ingredientDescName := ⟨fun a b => le_total b.name a.name⟩

instance : IsTrans Ingredient ingredientDescName := ⟨fun _ _ _ h h2 => le_trans h2 h⟩

/-- Descending-id order used by the recipe list endpoint (`order_by('-id')`
in the test suite). -/
def recipeDescId (a b : Recipe) : Prop := b.id ≤ a.id

instance : DecidableRel recipeDescId := fun a b =>
  inferInstanceAs (Decidable (b.id ≤ a.id))

instance : IsTotal Recipe recipeDescId := ⟨fun a b => Nat.le_total b.id a.id⟩

instance : IsTrans Recipe recipeDescId := ⟨fun _ _ _ h h2 => Nat.le_trans h2 h⟩

/-- Strict descending-id order; two recipes related both ways are equal
(vacuously), which gives uniqueness of sorted permutations. -/
def recipeNewerFirst (a b : Recipe) : Prop := b.id < a.id

instance : IsAntisymm Recipe recipeNewerFirst :=
  ⟨fun _ _ h h2 => absurd (Nat.lt_trans h h2) (Nat.lt_irrefl _)⟩

/-- Modelled from the spec: §4.1 — the tag list endpoint returns the
requesting user's tags ordered by descending name (the view class is not in
`src/`). -/
def tagQueryset (db : DB) (u : Nat) : List Tag :=
  List.insertionSort tagDescName (db.tags.filter (fun t => t.userId == u))

/-- Modelled from the spec: §4.1 — the ingredient list endpoint, descending
name. -/
def ingredientQueryset (db : DB) (u : Nat) : List Ingredient :=
  List.insertionSort ingredientDescName (db.ingredients.filter (fun i => i.userId == u))

/-- Modelled from the spec: §4.1 — the recipe list endpoint, descending id. -/
def recipeQueryset (db : DB) (u : Nat) : List Recipe :=
  List.insertionSort recipeDescId (db.recipes.filter (fun r => r.userId == u))

/-- Modelled from the spec: §4.1 — the ownership check is part of the
lookup: the detail endpoints search only within the requesting user's
queryset, so another user's id is simply absent. -/
def getOwnedRecipe (db : DB) (u rid : Nat) : Option Recipe :=
  (db.recipes.filter (fun r => r.userId == u)).find? (fun r => r.id == rid)

/-- Modelled from the spec: §4.1 `retrieve(user, id)` — not-found when the
id does not belong to the user. -/
def retrieveRecipe (db : DB) (u rid : Nat) : Except ApiError Recipe :=
  match getOwnedRecipe db u rid with
  | none => .error .notFound
  | some r => .ok r

/-- A write-request body for the recipe detail endpoints: each field is
`some` when supplied and `none` when omitted from the request. -/
structure RecipePayload where
  title : Option String
  timeMinutes : Option Nat
  price : Option Nat
  tags : Option (List Nat)
  ingredients : Option (List Nat)
deriving Repr, DecidableEq

/-- Field validation for a full update: the required fields title,
time_minutes and price must be supplied and title must be non-empty.
Modelled from the spec: §4.1 create/update validation (the serializer is
not in `src/`). -/
def putValid (p : RecipePayload) : Bool :=
  p.title.isSome && p.title != some "" && p.timeMinutes.isSome && p.price.isSome

/-- Field validation for a partial update: a supplied title must be
non-empty; omitted fields are not checked.  Modelled from the spec: §4.1. -/
def patchValid (p : RecipePayload) : Bool :=
  p.title != some ""

/-- Full-replace semantics: supplied scalar fields overwrite, and the
many-to-many sets are replaced by the supplied value or cleared when the
field is omitted.  Modelled from the spec: §3 "full replace clears unlisted
many-to-many relations". -/
def applyPut (r : Recipe) (p : RecipePayload) : Recipe :=
  { r with
    title := p.title.getD r.title
    timeMinutes := p.timeMinutes.getD r.timeMinutes
    price := p.price.getD r.price
    tags := p.tags.getD []
    ingredients := p.ingredients.getD [] }

/-- Partial-replace semantics: only supplied fields change.  Modelled from
the spec: §3 "partial replace merges only supplied fields". -/
def applyPatch (r : Recipe) (p : RecipePayload) : Recipe :=
  { r with
    title := p.title.getD r.title
    timeMinutes := p.timeMinutes.getD r.timeMinutes
    price := p.price.getD r.price
    tags := p.tags.getD r.tags
    ingredients := p.ingredients.getD r.ingredients }

/-- Replaces the stored row of the recipe `rid` owned by `u`. -/
def storeRecipe (db : DB) (u rid : Nat) (r : Recipe) : DB :=
  { db with recipes := db.recipes.map (fun x => if x.id == rid && x.userId == u then r else x) }

/-- Modelled from the spec: §4.1 `update(user, id, fields)` (PUT) — not-found
when the id is not the user's, validation error on missing required fields,
otherwise full replace. -/
def putRecipe (db : DB) (u rid : Nat) (p : RecipePayload) : DB × Except ApiError Recipe :=
  match getOwnedRecipe db u rid with
  | none => (db, .error .notFound)
  | some r =>
    if putValid p then
      let r2 := applyPut r p
      (storeRecipe db u rid r2, .ok r2)
    else (db, .error .validation)

/-- Modelled from the spec: §4.1 `partial_update(user, id, fields)` (PATCH). -/
def patchRecipe (db : DB) (u rid : Nat) (p : RecipePayload) : DB × Except ApiError Recipe :=
  match getOwnedRecipe db u rid with
  | none => (db, .error .notFound)
  | some r =>
    if patchValid p then
      let r2 := applyPatch r p
      (storeRecipe db u rid r2, .ok r2)
    else (db, .error .validation)

/-- Modelled from the spec: §4.1 `delete(user, id)` together with §4.3's
no-orphaned-files invariant — deleting a recipe also removes its backing
image file from the file store. -/
def deleteRecipe (db : DB) (u rid : Nat) : DB × Except ApiError Unit :=
  match getOwnedRecipe db u rid with
  | none => (db, .error .notFound)
  | some r =>
    let files := match r.image with
      | some f => db.files.erase f
      | none => db.files
    ({ db with
        recipes := db.recipes.filter (fun x => !(x.id == rid && x.userId == u))
        files := files },
     .ok ())

/-- Modelled from the spec: §4.3 — explicitly clearing a recipe's image
removes the backing file and empties the image reference. -/
def clearImage (db : DB) (u rid : Nat) : DB × Except ApiError Unit :=
  match getOwnedRecipe db u rid with
  | none => (db, .error .notFound)
  | some r =>
    let files := match r.image with
      | some f => db.files.erase f
      | none => db.files
    ({ db with
        recipes := db.recipes.map
          (fun x => if x.id == rid && x.userId == u then { x with image := none } else x)
        files := files },
     .ok ())

theorem mem_tagQueryset {db : DB} {u : Nat} {t : Tag} :
    t ∈ tagQueryset db u ↔ t ∈ db.tags ∧ t.userId = u := by
  unfold tagQueryset
  rw [List.mem_insertionSort, List.mem_filter]
  simp

theorem mem_ingredientQueryset {db : DB} {u : Nat} {i : Ingredient} :
    i ∈ ingredientQueryset db u ↔ i ∈ db.ingredients ∧ i.userId = u := by
  unfold ingredientQueryset
  rw [List.mem_insertionSort, List.mem_filter]
  simp

theorem mem_recipeQueryset {db : DB} {u : Nat} {r : Recipe} :
    r ∈ recipeQueryset db u ↔ r ∈ db.recipes ∧ r.userId = u := by
  unfold recipeQueryset
  rw [List.mem_insertionSort, List.mem_filter]
  simp

theorem getOwnedRecipe_eq_some {db : DB} {u rid : Nat} {r : Recipe}
    (h : getOwnedRecipe db u rid = some r) :
    r ∈ db.recipes ∧ r.userId = u ∧ r.id = rid := by
  unfold getOwnedRecipe at h
  have hmem := List.mem_of_find?_eq_some h
  have hpred := List.find?_some h
  rw [List.mem_filter] at hmem
  refine ⟨hmem.1, ?_, ?_⟩
  · simpa using hmem.2
  · simpa using hpred

theorem getOwnedRecipe_other_user {db : DB} {a b rid : Nat} (hab : a ≠ b)
    (hrid : ∀ x ∈ db.recipes, x.id = rid → x.userId = b) :
    getOwnedRecipe db a rid = none := by
  cases hfind : getOwnedRecipe db a rid with
  | none => rfl
  | some r =>
    obtain ⟨hmem, huser, hid⟩ := getOwnedRecipe_eq_some hfind
    exact absurd (huser.symm.trans (hrid r hmem hid)) hab

/-- A concrete store used to instantiate theorems: user 1 and user 2 each
own one tag, one ingredient and one recipe. -/
def sampleDb : DB :=
  { users := [⟨1, "a@test.com", "testpass", "A"⟩, ⟨2, "b@test.com", "otherpass", "B"⟩]
    tags := [⟨1, 1, "Vegan"⟩, ⟨2, 2, "Meat"⟩]
    ingredients := [⟨1, 1, "Salt"⟩, ⟨2, 2, "Apple"⟩]
    recipes := [⟨1, 1, "Soup", 10, 5, [1], [1], none⟩,
                ⟨2, 2, "Cake", 20, 3, [2], [2], some "uploads/recipe/2.jpg"⟩]
    files := ["uploads/recipe/2.jpg"] }

/-- C1. Ownership isolation: for distinct users `a ≠ b`, `a`'s tag,
ingredient and recipe lists never contain a record owned by `b`, and
retrieve, update (PUT), partial update (PATCH) and delete by `a` on an id
owned by `b` all fail with a not-found error. -/
theorem c1_ownership_isolation
    (db : DB) (a b : Nat) (hab : a ≠ b)
    (t : Tag) (ht : t.userId = b)
    (i : Ingredient) (hi : i.userId = b)
    (r : Recipe) (hr : r.userId = b)
    (rid : Nat) (hrid : ∀ x ∈ db.recipes, x.id = rid → x.userId = b)
    (p : RecipePayload) :
    t ∉ tagQueryset db a ∧ i ∉ ingredientQueryset db a ∧ r ∉ recipeQueryset db a ∧
    retrieveRecipe db a rid = .error .notFound ∧
    (putRecipe db a rid p).2 = .error .notFound ∧
    (patchRecipe db a rid p).2 = .error .notFound ∧
    (deleteRecipe db a rid).2 = .error .notFound := by
  have hnone : getOwnedRecipe db a rid = none := getOwnedRecipe_other_user hab hrid
  refine ⟨?_, ?_, ?_, ?_, ?_, ?_, ?_⟩
  · intro hmem
    exact hab ((mem_tagQueryset.mp hmem).2.symm.trans ht)
  · intro hmem
    exact hab ((mem_ingredientQueryset.mp hmem).2.symm.trans hi)
  · intro hmem
    exact hab ((mem_recipeQueryset.mp hmem).2.symm.trans hr)
  · unfold retrieveRecipe
    rw [hnone]
  · unfold putRecipe
    rw [hnone]
  · unfold patchRecipe
    rw [hnone]
  · unfold deleteRecipe
    rw [hnone]

/-- C1 witness: user 1 of the sample store cannot see or touch user 2's
records. -/
theorem c1_ownership_isolation_witness :
    (1 : Nat) ≠ 2 ∧
    (⟨2, 2, "Meat"⟩ : Tag).userId = 2 ∧
    (⟨2, 2, "Apple"⟩ : Ingredient).userId = 2 ∧
    (⟨2, 2, "Cake", 20, 3, [2], [2], some "uploads/recipe/2.jpg"⟩ : Recipe).userId = 2 ∧
    (∀ x ∈ sampleDb.recipes, x.id = 2 → x.userId = 2) ∧
    ((⟨2, 2, "Meat"⟩ : Tag) ∉ tagQueryset sampleDb 1 ∧
     (⟨2, 2, "Apple"⟩ : Ingredient) ∉ ingredientQueryset sampleDb 1 ∧
     (⟨2, 2, "Cake", 20, 3, [2], [2], some "uploads/recipe/2.jpg"⟩ : Recipe) ∉ recipeQueryset sampleDb 1 ∧
     retrieveRecipe sampleDb 1 2 = .error .notFound ∧
     (putRecipe sampleDb 1 2 ⟨some "t", some 1, some 1, none, none⟩).2 = .error .notFound ∧
     (patchRecipe sampleDb 1 2 ⟨some "t", some 1, some 1, none, none⟩).2 = .error .notFound ∧
     (deleteRecipe sampleDb 1 2).2 = .error .notFound) :=
  ⟨by decide, by decide, by decide, by decide, by decide,
   c1_ownership_isolation sampleDb 1 2 (by decide) _ (by decide) _ (by decide) _ (by decide)
     2 (by decide) ⟨some "t", some 1, some 1, none, none⟩⟩

/-- C3. Update semantics for many-to-many fields: when the `tags` field is
omitted, a full update (PUT) succeeds with the recipe's tag associations
cleared, while a partial update (PATCH) succeeds leaving the tag
associations unchanged and modifying only the supplied fields (every
omitted field keeps its stored value, and id, owner and image never
change). -/
theorem c3_put_clears_patch_preserves
    (db : DB) (u rid : Nat) (p : RecipePayload) (r : Recipe)
    (hfound : getOwnedRecipe db u rid = some r)
    (htags : p.tags = none)
    (hput : putValid p = true) :
    (putRecipe db u rid p).2 = .ok (applyPut r p) ∧ (applyPut r p).tags = [] ∧
    (patchRecipe db u rid p).2 = .ok (applyPatch r p) ∧
    (applyPatch r p).tags = r.tags ∧
    (applyPatch r p).id = r.id ∧ (applyPatch r p).userId = r.userId ∧
    (applyPatch r p).image = r.image ∧
    (p.title = none → (applyPatch r p).title = r.title) ∧
    (p.timeMinutes = none → (applyPatch r p).timeMinutes = r.timeMinutes) ∧
    (p.price = none → (applyPatch r p).price = r.price) ∧
    (p.ingredients = none → (applyPatch r p).ingredients = r.ingredients) ∧
    (∀ s, p.title = some s → (applyPatch r p).title = s) ∧
    (∀ m, p.timeMinutes = some m → (applyPatch r p).timeMinutes = m) ∧
    (∀ c, p.price = some c → (applyPatch r p).price = c) ∧
    (∀ l, p.ingredients = some l → (applyPatch r p).ingredients = l) := by
  have hpatch : patchValid p = true := by
    unfold putValid at hput
    unfold patchValid
    simp only [Bool.and_eq_true] at hput
    exact hput.1.1.2
  refine ⟨?_, ?_, ?_, ?_, rfl, rfl, rfl, ?_, ?_, ?_, ?_, ?_, ?_, ?_, ?_⟩
  · unfold putRecipe
    rw [hfound]
    simp [hput]
  · simp [applyPut, htags]
  · unfold patchRecipe
    rw [hfound]
    simp [hpatch]
  · simp [applyPatch, htags]
  · intro h
    simp [applyPatch, h]
  · intro h
    simp [applyPatch, h]
  · intro h
    simp [applyPatch, h]
  · intro h
    simp [applyPatch, h]
  · intro s h
    simp [applyPatch, h]
  · intro m h
    simp [applyPatch, h]
  · intro c h
    simp [applyPatch, h]
  · intro l h
    simp [applyPatch, h]

/-- C3 witness: updating recipe 1 of the sample store with a payload that
omits `tags`. -/
theorem c3_put_clears_patch_preserves_witness :
    getOwnedRecipe sampleDb 1 1 = some ⟨1, 1, "Soup", 10, 5, [1], [1], none⟩ ∧
    (⟨some "Stew", some 15, some 7, none, none⟩ : RecipePayload).tags = none ∧
    putValid ⟨some "Stew", some 15, some 7, none, none⟩ = true ∧
    ((putRecipe sampleDb 1 1 ⟨some "Stew", some 15, some 7, none, none⟩).2 =
        .ok (applyPut ⟨1, 1, "Soup", 10, 5, [1], [1], none⟩ ⟨some "Stew", some 15, some 7, none, none⟩) ∧
      (applyPut ⟨1, 1, "Soup", 10, 5, [1], [1], none⟩ ⟨some "Stew", some 15, some 7, none, none⟩).tags = [] ∧
      (patchRecipe sampleDb 1 1 ⟨some "Stew", some 15, some 7, none, none⟩).2 =
        .ok (applyPatch ⟨1, 1, "Soup", 10, 5, [1], [1], none⟩ ⟨some "Stew", some 15, some 7, none, none⟩) ∧
      (applyPatch ⟨1, 1, "Soup", 10, 5, [1], [1], none⟩ ⟨some "Stew", some 15, some 7, none, none⟩).tags =
        (⟨1, 1, "Soup", 10, 5, [1], [1], none⟩ : Recipe).tags ∧
      (applyPatch ⟨1, 1, "Soup", 10, 5, [1], [1], none⟩ ⟨some "Stew", some 15, some 7, none, none⟩).id =
        (⟨1, 1, "Soup", 10, 5, [1], [1], none⟩ : Recipe).id ∧
      (applyPatch ⟨1, 1, "Soup", 10, 5, [1], [1], none⟩ ⟨some "Stew", some 15, some 7, none, none⟩).userId =
        (⟨1, 1, "Soup", 10, 5, [1], [1], none⟩ : Recipe).userId ∧
      (applyPatch ⟨1, 1, "Soup", 10, 5, [1], [1], none⟩ ⟨some "Stew", some 15, some 7, none, none⟩).image =
        (⟨1, 1, "Soup", 10, 5, [1], [1], none⟩ : Recipe).image ∧
      ((⟨some "Stew", some 15, some 7, none, none⟩ : RecipePayload).title = none →
        (applyPatch ⟨1, 1, "Soup", 10, 5, [1], [1], none⟩ ⟨some "Stew", some 15, some 7, none, none⟩).title =
          (⟨1, 1, "Soup", 10, 5, [1], [1], none⟩ : Recipe).title) ∧
      ((⟨some "Stew", some 15, some 7, none, none⟩ : RecipePayload).timeMinutes = none →
        (applyPatch ⟨1, 1, "Soup", 10, 5, [1], [1], none⟩ ⟨some "Stew", some 15, some 7, none, none⟩).timeMinutes =
          (⟨1, 1, "Soup", 10, 5, [1], [1], none⟩ : Recipe).timeMinutes) ∧
      ((⟨some "Stew", some 15, some 7, none, none⟩ : RecipePayload).price = none →
        (applyPatch ⟨1, 1, "Soup", 10, 5, [1], [1], none⟩ ⟨some "Stew", some 15, some 7, none, none⟩).price =
          (⟨1, 1, "Soup", 10, 5, [1], [1], none⟩ : Recipe).price) ∧
      ((⟨some "Stew", some 15, some 7, none, none⟩ : RecipePayload).ingredients = none →
        (applyPatch ⟨1, 1, "Soup", 10, 5, [1], [1], none⟩ ⟨some "Stew", some 15, some 7, none, none⟩).ingredients =
          (⟨1, 1, "Soup", 10, 5, [1], [1], none⟩ : Recipe).ingredients) ∧
      (∀ s, (⟨some "Stew", some 15, some 7, none, none⟩ : RecipePayload).title = some s →
        (applyPatch ⟨1, 1, "Soup", 10, 5, [1], [1], none⟩ ⟨some "Stew", some 15, some 7, none, none⟩).title = s) ∧
      (∀ m, (⟨some "Stew", some 15, some 7, none, none⟩ : RecipePayload).timeMinutes = some m →
        (applyPatch ⟨1, 1, "Soup", 10, 5, [1], [1], none⟩ ⟨some "Stew", some 15, some 7, none, none⟩).timeMinutes = m) ∧
      (∀ c, (⟨some "Stew", some 15, some 7, none, none⟩ : RecipePayload).price = some c →
        (applyPatch ⟨1, 1, "Soup", 10, 5, [1], [1], none⟩ ⟨some "Stew", some 15, some 7, none, none⟩).price = c) ∧
      (∀ l, (⟨some "Stew", some 15, some 7, none, none⟩ : RecipePayload).ingredients = some l →
        (applyPatch ⟨1, 1, "Soup", 10, 5, [1], [1], none⟩ ⟨some "Stew", some 15, some 7, none, none⟩).ingredients = l)) :=
  ⟨by decide, rfl, by decide,
   c3_put_clears_patch_preserves sampleDb 1 1 ⟨some "Stew", some 15, some 7, none, none⟩
     ⟨1, 1, "Soup", 10, 5, [1], [1], none⟩ (by decide) rfl (by decide)⟩

theorem recipeQueryset_newest_first (db : DB) (u : Nat)
    (hmono : db.recipes.Pairwise (fun x y => x.id < y.id)) :
    recipeQueryset db u = (db.recipes.filter (fun r => r.userId == u)).reverse := by
  have hl : (db.recipes.filter (fun r => r.userId == u)).Pairwise (fun x y => x.id < y.id) :=
    hmono.sublist (List.filter_sublist _)
  have hperm : List.Perm (recipeQueryset db u)
      (db.recipes.filter (fun r => r.userId == u)).reverse :=
    (List.perm_insertionSort _ _).trans (List.reverse_perm _).symm
  have hsorted₂ : (db.recipes.filter (fun r => r.userId == u)).reverse.Pairwise recipeNewerFirst :=
    List.pairwise_reverse.mpr (hl.imp (fun h => h))
  have hne : (recipeQueryset db u).Pairwise (fun x y => x.id ≠ y.id) := by
    have hne₀ : (db.recipes.filter (fun r => r.userId == u)).Pairwise (fun x y => x.id ≠ y.id) :=
      hl.imp (fun h => Nat.ne_of_lt h)
    exact ((List.perm_insertionSort recipeDescId _).pairwise_iff
      (fun h hh => h hh.symm)).mpr hne₀
  have hsorted : List.Sorted recipeDescId (recipeQueryset db u) :=
    List.sorted_insertionSort _ _
  have hsorted₁ : (recipeQueryset db u).Pairwise recipeNewerFirst :=
    (List.Pairwise.and hsorted hne).imp (fun h => Nat.lt_of_le_of_ne h.1 h.2.symm)
  exact List.eq_of_perm_of_sorted hperm hsorted₁ hsorted₂

/-- C8. List ordering: each list endpoint returns exactly the requesting
user's records, tags and ingredients sorted by descending name, recipes
sorted by descending id; and when ids increase along the table in creation
order (auto-increment), the recipe list is exactly the user's recipes
newest-first (the reverse of creation order). -/
theorem c8_list_ordering (db : DB) (u : Nat)
    (hmono : db.recipes.Pairwise (fun x y => x.id < y.id)) :
    (∀ t : Tag, t ∈ tagQueryset db u ↔ t ∈ db.tags ∧ t.userId = u) ∧
    List.Sorted tagDescName (tagQueryset db u) ∧
    (∀ i : Ingredient, i ∈ ingredientQueryset db u ↔ i ∈ db.ingredients ∧ i.userId = u) ∧
    List.Sorted ingredientDescName (ingredientQueryset db u) ∧
    (∀ r : Recipe, r ∈ recipeQueryset db u ↔ r ∈ db.recipes ∧ r.userId = u) ∧
    List.Sorted recipeDescId (recipeQueryset db u) ∧
    recipeQueryset db u = (db.recipes.filter (fun r => r.userId == u)).reverse :=
  ⟨fun _ => mem_tagQueryset, List.sorted_insertionSort _ _,
   fun _ => mem_ingredientQueryset, List.sorted_insertionSort _ _,
   fun _ => mem_recipeQueryset, List.sorted_insertionSort _ _,
   recipeQueryset_newest_first db u hmono⟩

/-- C8 witness: the sample store's recipe table has increasing ids, so the
ordering contract holds there concretely. -/
theorem c8_list_ordering_witness :
    sampleDb.recipes.Pairwise (fun x y => x.id < y.id) ∧
    ((∀ t : Tag, t ∈ tagQueryset sampleDb 1 ↔ t ∈ sampleDb.tags ∧ t.userId = 1) ∧
     List.Sorted tagDescName (tagQueryset sampleDb 1) ∧
     (∀ i : Ingredient, i ∈ ingredientQueryset sampleDb 1 ↔ i ∈ sampleDb.ingredients ∧ i.userId = 1) ∧
     List.Sorted ingredientDescName (ingredientQueryset sampleDb 1) ∧
     (∀ r : Recipe, r ∈ recipeQueryset sampleDb 1 ↔ r ∈ sampleDb.recipes ∧ r.userId = 1) ∧
     List.Sorted recipeDescId (recipeQueryset sampleDb 1) ∧
     recipeQueryset sampleDb 1 = (sampleDb.recipes.filter (fun r => r.userId == 1)).reverse) :=
  ⟨by decide, c8_list_ordering sampleDb 1 (by decide)⟩

/-- Modelled from the spec: §4.2 — a query parameter is a comma-separated
list of identifiers; malformed identifiers are ignored rather than causing
a hard failure.  Whitespace around an identifier is tolerated (the test
suite sends `"1, 2"`). -/
def paramsToIds (s : String) : List Nat :=
  (s.splitOn ",").filterMap (fun tok => tok.trim.toNat?)

/-- Modelled from the spec: §4.2 — the recipe list endpoint with optional
`tags` and `ingredients` query parameters: restrict to the user's recipes
associated with at least one listed tag id and/or at least one listed
ingredient id; an absent parameter imposes no restriction. -/
def filteredRecipeQueryset (db : DB) (u : Nat) (tagsQ ingsQ : Option String) : List Recipe :=
  let base := db.recipes.filter (fun r => r.userId == u)
  let base2 := match tagsQ with
    | none => base
    | some s => base.filter (fun r => r.tags.any (fun t => (paramsToIds s).contains t))
  let base3 := match ingsQ with
    | none => base2
    | some s => base2.filter (fun r => r.ingredients.any (fun i => (paramsToIds s).contains i))
  List.insertionSort recipeDescId base3

/-- C2. Recipe filtering: a recipe appears in the filtered list exactly when
it is one of the user's recipes, it matches the tag filter when one is
supplied (at least one of its tag ids is listed — OR within the filter), and
it matches the ingredient filter when one is supplied; both filters together
conjoin (AND), and an absent filter imposes no restriction. -/
theorem c2_recipe_filtering (db : DB) (u : Nat) (tagsQ ingsQ : Option String) (r : Recipe) :
    r ∈ filteredRecipeQueryset db u tagsQ ingsQ ↔
      r ∈ db.recipes ∧ r.userId = u ∧
      (∀ s, tagsQ = some s → ∃ t ∈ r.tags, t ∈ paramsToIds s) ∧
      (∀ s, ingsQ = some s → ∃ i ∈ r.ingredients, i ∈ paramsToIds s) := by
  unfold filteredRecipeQueryset
  rw [List.mem_insertionSort]
  cases tagsQ with
  | none =>
    cases ingsQ with
    | none =>
      simp [List.mem_filter]
    | some s =>
      simp [List.mem_filter, List.any_eq_true, and_comm, and_assoc, and_left_comm]
  | some s =>
    cases ingsQ with
    | none =>
      simp [List.mem_filter, List.any_eq_true, and_comm, and_assoc, and_left_comm]
    | some s2 =>
      simp [List.mem_filter, List.any_eq_true, and_comm, and_assoc, and_left_comm]

/-- C2 witness: the filtering characterisation instantiated at the sample
store with both query parameters present. -/
theorem c2_recipe_filtering_witness :
    (⟨1, 1, "Soup", 10, 5, [1], [1], none⟩ : Recipe) ∈
        filteredRecipeQueryset sampleDb 1 (some "1, 2") (some "1") ↔
      (⟨1, 1, "Soup", 10, 5, [1], [1], none⟩ : Recipe) ∈ sampleDb.recipes ∧
      (⟨1, 1, "Soup", 10, 5, [1], [1], none⟩ : Recipe).userId = 1 ∧
      (∀ s, (some "1, 2" : Option String) = some s →
        ∃ t ∈ (⟨1, 1, "Soup", 10, 5, [1], [1], none⟩ : Recipe).tags, t ∈ paramsToIds s) ∧
      (∀ s, (some "1" : Option String) = some s →
        ∃ i ∈ (⟨1, 1, "Soup", 10, 5, [1], [1], none⟩ : Recipe).ingredients, i ∈ paramsToIds s) :=
  c2_recipe_filtering sampleDb 1 (some "1, 2") (some "1") ⟨1, 1, "Soup", 10, 5, [1], [1], none⟩

/-- Strips whitespace characters from both ends of a character list. -/
def trimChars (cs : List Char) : List Char :=
  ((cs.dropWhile Char.isWhitespace).reverse.dropWhile Char.isWhitespace).reverse

/-- Strips surrounding whitespace from a string (the normalisation a
character field applies to its input). -/
def trimField (s : String) : String :=
  ⟨trimChars s.data⟩

/-- The character-field input step of the authentication-token serializer
(`user/serializers.py`): a character field normally strips surrounding
whitespace; the password field is declared with `trim_whitespace=False` and
is passed through unchanged. -/
def charFieldClean (trimWhitespace : Bool) (raw : String) : String :=
  if trimWhitespace then trimField raw else raw

/-- Modelled from the spec: credential checking is delegated to the auth
library (§1 "out of scope"); an account matches when the submitted email
and password agree with a stored account. -/
def authenticate (db : DB) (email password : String) : Option User :=
  db.users.find? (fun u => u.email == email && u.password == password)

/-- An issued bearer token, bound to the authenticated user. -/
structure AuthToken where
  userId : Nat
deriving Repr, DecidableEq

/-- Token issuance, from `AuthTokenSerializer` in `user/serializers.py`:
both fields are required non-blank character fields (the email field is
whitespace-trimmed, the password field is not), then `authenticate` runs
on the cleaned values and a failure raises a validation error with code
authentication (HTTP 400, no token). -/
def issueToken (db : DB) (rawEmail rawPassword : String) : Except ApiError AuthToken :=
  let email := charFieldClean true rawEmail
  let password := charFieldClean false rawPassword
  if email == "" || password == "" then .error .validation
  else
    match authenticate db email password with
    | none => .error .authentication
    | some u => .ok ⟨u.id⟩

/-- The registration response: the serializer's readable fields are email
and name; the password is write-only (`user/serializers.py`). -/
structure UserOut where
  email : String
  name : String
deriving Repr, DecidableEq

/-- Next auto-increment user id. -/
def nextUserId (db : DB) : Nat := db.users.foldl (fun m u => max m u.id) 0 + 1

/-- Registration, from `UserSerializer` in `user/serializers.py` (password
minimum length 5, write-only) together with the spec's unique-email rule
(§3 User; the model class is not in `src/`): validation runs first and no
record is stored on failure. -/
def register (db : DB) (email password name : String) : DB × Except ApiError UserOut :=
  if db.users.any (fun u => u.email == email) then (db, .error .validation)
  else if password.length < 5 then (db, .error .validation)
  else
    ({ db with users := db.users ++ [⟨nextUserId db, email, password, name⟩] },
     .ok ⟨email, name⟩)

/-- C4. Registration fails with a validation error exactly when the email is
already registered or the password is shorter than 5 characters; on failure
the store is unchanged (no user record persisted); otherwise the new record
is appended and the response carries only email and name (the password is
write-only and absent from the response shape). -/
theorem c4_register_validation (db : DB) (email password name : String) :
    ((register db email password name).2 = .error .validation ↔
      (∃ u ∈ db.users, u.email = email) ∨ password.length < 5) ∧
    (((∃ u ∈ db.users, u.email = email) ∨ password.length < 5) →
      (register db email password name).1 = db) ∧
    (¬((∃ u ∈ db.users, u.email = email) ∨ password.length < 5) →
      (register db email password name).1.users =
        db.users ++ [⟨nextUserId db, email, password, name⟩] ∧
      (register db email password name).2 = .ok ⟨email, name⟩) := by
  by_cases h1 : ∃ u ∈ db.users, u.email = email
  · have hany : db.users.any (fun u => u.email == email) = true := by
      rw [List.any_eq_true]
      obtain ⟨u, hu, he⟩ := h1
      exact ⟨u, hu, by simpa using he⟩
    refine ⟨?_, ?_, ?_⟩
    · simp [register, hany, h1]
    · intro _
      simp [register, hany]
    · intro hcontra
      exact absurd (Or.inl h1) hcontra
  · have hany : db.users.any (fun u => u.email == email) = false := by
      rw [Bool.eq_false_iff]
      intro hc
      rw [List.any_eq_true] at hc
      obtain ⟨u, hu, he⟩ := hc
      exact h1 ⟨u, hu, by simpa using he⟩
    by_cases h2 : password.length < 5
    · refine ⟨?_, ?_, ?_⟩
      · simp [register, hany, h1, h2]
      · intro _
        simp [register, hany, h2]
      · intro hcontra
        exact absurd (Or.inr h2) hcontra
    · refine ⟨?_, ?_, ?_⟩
      · simp [register, hany, h1, h2]
      · intro hcase
        exact absurd hcase (by simp [h1, h2])
      · intro _
        simp [register, hany, h2]

/-- C4 witness: registering a taken email fails, a short password fails, and
a fresh registration succeeds on the sample store. -/
theorem c4_register_validation_witness :
    (((register sampleDb "a@test.com" "longpass" "X").2 = .error .validation ↔
        (∃ u ∈ sampleDb.users, u.email = "a@test.com") ∨ ("longpass").length < 5) ∧
      (((∃ u ∈ sampleDb.users, u.email = "a@test.com") ∨ ("longpass").length < 5) →
        (register sampleDb "a@test.com" "longpass" "X").1 = sampleDb) ∧
      (¬((∃ u ∈ sampleDb.users, u.email = "a@test.com") ∨ ("longpass").length < 5) →
        (register sampleDb "a@test.com" "longpass" "X").1.users =
          sampleDb.users ++ [⟨nextUserId sampleDb, "a@test.com", "longpass", "X"⟩] ∧
        (register sampleDb "a@test.com" "longpass" "X").2 = .ok ⟨"a@test.com", "X"⟩)) ∧
    (((register sampleDb "c@test.com" "abc" "X").2 = .error .validation ↔
        (∃ u ∈ sampleDb.users, u.email = "c@test.com") ∨ ("abc").length < 5) ∧
      (((∃ u ∈ sampleDb.users, u.email = "c@test.com") ∨ ("abc").length < 5) →
        (register sampleDb "c@test.com" "abc" "X").1 = sampleDb) ∧
      (¬((∃ u ∈ sampleDb.users, u.email = "c@test.com") ∨ ("abc").length < 5) →
        (register sampleDb "c@test.com" "abc" "X").1.users =
          sampleDb.users ++ [⟨nextUserId sampleDb, "c@test.com", "abc", "X"⟩] ∧
        (register sampleDb "c@test.com" "abc" "X").2 = .ok ⟨"c@test.com", "X"⟩)) ∧
    (((register sampleDb "c@test.com" "longpass" "X").2 = .error .validation ↔
        (∃ u ∈ sampleDb.users, u.email = "c@test.com") ∨ ("longpass").length < 5) ∧
      (((∃ u ∈ sampleDb.users, u.email = "c@test.com") ∨ ("longpass").length < 5) →
        (register sampleDb "c@test.com" "longpass" "X").1 = sampleDb) ∧
      (¬((∃ u ∈ sampleDb.users, u.email = "c@test.com") ∨ ("longpass").length < 5) →
        (register sampleDb "c@test.com" "longpass" "X").1.users =
          sampleDb.users ++ [⟨nextUserId sampleDb, "c@test.com", "longpass", "X"⟩] ∧
        (register sampleDb "c@test.com" "longpass" "X").2 = .ok ⟨"c@test.com", "X"⟩)) :=
  ⟨c4_register_validation sampleDb "a@test.com" "longpass" "X",
   c4_register_validation sampleDb "c@test.com" "abc" "X",
   c4_register_validation sampleDb "c@test.com" "longpass" "X"⟩

/-- C5. Token issuance raises-iff: the request fails (400, no token) exactly
when the fields are missing/empty or the cleaned credentials match no
account; on such a match with non-empty fields it succeeds, and any issued
token is bound to the matching user. -/
theorem c5_issue_token (db : DB) (e p : String) :
    ((issueToken db e p).isOk = false ↔
      trimField e = "" ∨ p = "" ∨ authenticate db (trimField e) p = none) ∧
    (∀ u, authenticate db (trimField e) p = some u → trimField e ≠ "" → p ≠ "" →
      issueToken db e p = .ok ⟨u.id⟩) ∧
    (∀ t, issueToken db e p = .ok t →
      ∃ u, authenticate db (trimField e) p = some u ∧ t.userId = u.id) := by
  by_cases he : trimField e = ""
  · refine ⟨?_, ?_, ?_⟩
    · simp [issueToken, charFieldClean, he, Except.isOk, Except.toBool]
    · intro u _ hne
      exact absurd he hne
    · intro t ht
      simp [issueToken, charFieldClean, he] at ht
  · by_cases hp : p = ""
    · refine ⟨?_, ?_, ?_⟩
      · simp [issueToken, charFieldClean, he, hp, Except.isOk, Except.toBool]
      · intro u _ _ hne
        exact absurd hp hne
      · intro t ht
        simp [issueToken, charFieldClean, he, hp] at ht
    · cases hauth : authenticate db (trimField e) p with
      | none =>
        refine ⟨?_, ?_, ?_⟩
        · simp [issueToken, charFieldClean, he, hp, hauth, Except.isOk, Except.toBool]
        · intro u hu
          exact absurd hu (by simp)
        · intro t ht
          simp [issueToken, charFieldClean, he, hp, hauth] at ht
      | some u =>
        refine ⟨?_, ?_, ?_⟩
        · simp [issueToken, charFieldClean, he, hp, hauth, Except.isOk, Except.toBool]
        · intro v hv _ _
          have huv : u = v := Option.some.inj hv
          rw [← huv]
          simp [issueToken, charFieldClean, he, hp, hauth]
        · intro t ht
          have hok : (Except.ok ⟨u.id⟩ : Except ApiError AuthToken) = .ok t := by
            rw [← ht]
            simp [issueToken, charFieldClean, he, hp, hauth]
          have ht2 : (⟨u.id⟩ : AuthToken) = t := Except.ok.inj hok
          exact ⟨u, rfl, by rw [← ht2]⟩

/-- C5 witness: correct credentials for user 1 of the sample store. -/
theorem c5_issue_token_witness :
    ((issueToken sampleDb "a@test.com" "testpass").isOk = false ↔
      trimField "a@test.com" = "" ∨ ("testpass" : String) = "" ∨
      authenticate sampleDb (trimField "a@test.com") "testpass" = none) ∧
    (∀ u, authenticate sampleDb (trimField "a@test.com") "testpass" = some u →
      trimField "a@test.com" ≠ "" → ("testpass" : String) ≠ "" →
      issueToken sampleDb "a@test.com" "testpass" = .ok ⟨u.id⟩) ∧
    (∀ t, issueToken sampleDb "a@test.com" "testpass" = .ok t →
      ∃ u, authenticate sampleDb (trimField "a@test.com") "testpass" = some u ∧
        t.userId = u.id) :=
  c5_issue_token sampleDb "a@test.com" "testpass"

/-- C10. The password reaches authentication exactly as submitted: the
password character field is configured without whitespace trimming, so two
requests whose passwords differ only in surrounding whitespace are checked
against different strings — concretely, the stored password authenticates
and its whitespace-padded variant is rejected even though trimming would
identify them. -/
theorem c10_password_not_trimmed :
    (∀ raw : String, charFieldClean false raw = raw) ∧
    issueToken sampleDb "a@test.com" "testpass" = .ok ⟨1⟩ ∧
    issueToken sampleDb "a@test.com" " testpass " = .error .authentication ∧
    trimField " testpass " = "testpass" := by
  refine ⟨fun raw => rfl, ?_, ?_, ?_⟩
  · rfl
  · rfl
  · rfl

/-- Output shape of a tag (id and name). -/
structure TagOut where
  id : Nat
  name : String
deriving Repr, DecidableEq

/-- Output shape of an ingredient (id and name). -/
structure IngredientOut where
  id : Nat
  name : String
deriving Repr, DecidableEq

/-- Modelled from the spec: §4.4 — the list/write recipe shape carries
id-only references for tags and ingredients (the recipe serializer module
is not in `src/`). -/
structure RecipeListOut where
  id : Nat
  title : String
  timeMinutes : Nat
  price : Nat
  tagIds : List Nat
  ingredientIds : List Nat
deriving Repr, DecidableEq

/-- Modelled from the spec: §4.4 — the single-item detail shape embeds full
tag and ingredient objects. -/
structure RecipeDetailOut where
  id : Nat
  title : String
  timeMinutes : Nat
  price : Nat
  tags : List TagOut
  ingredients : List IngredientOut
deriving Repr, DecidableEq

def serializeTag (t : Tag) : TagOut := ⟨t.id, t.name⟩

def serializeIngredient (i : Ingredient) : IngredientOut := ⟨i.id, i.name⟩

/-- Modelled from the spec: §4.4 — the list serializer maps a recipe to its
scalar fields plus the raw id lists of its associated sets. -/
def serializeRecipe (r : Recipe) : RecipeListOut :=
  ⟨r.id, r.title, r.timeMinutes, r.price, r.tags, r.ingredients⟩

/-- Modelled from the spec: §4.4 — the detail serializer resolves each
associated id to the stored record and embeds its full representation. -/
def serializeRecipeDetail (db : DB) (r : Recipe) : RecipeDetailOut :=
  ⟨r.id, r.title, r.timeMinutes, r.price,
   (r.tags.filterMap (fun tid => db.tags.find? (fun t => t.id == tid))).map serializeTag,
   (r.ingredients.filterMap
     (fun iid => db.ingredients.find? (fun i => i.id == iid))).map serializeIngredient⟩

/-- Modelled from the spec: §4.1/§4.4 — the recipe list endpoint response. -/
def listRecipesApi (db : DB) (u : Nat) : List RecipeListOut :=
  (recipeQueryset db u).map serializeRecipe

/-- Modelled from the spec: §4.1/§4.4 — the recipe detail endpoint
response. -/
def retrieveRecipeDetailApi (db : DB) (u rid : Nat) : Except ApiError RecipeDetailOut :=
  match getOwnedRecipe db u rid with
  | none => .error .notFound
  | some r => .ok (serializeRecipeDetail db r)

theorem tags_filterMap_find_ids {db : DB} :
    ∀ (l : List Nat), (∀ tid ∈ l, ∃ t ∈ db.tags, t.id = tid) →
      ((l.filterMap (fun tid => db.tags.find? (fun t => t.id == tid))).map
          (fun t => (serializeTag t).id)) = l := by
  intro l
  induction l with
  | nil =>
    intro _
    rfl
  | cons hd tl ih =>
    intro hall
    obtain ⟨t, htmem, htid⟩ := hall hd (by simp)
    have hex : ∃ x, x ∈ db.tags ∧ (fun t => t.id == hd) x = true :=
      ⟨t, htmem, by simp [htid]⟩
    rw [← List.find?_isSome] at hex
    cases hfind : db.tags.find? (fun t => t.id == hd) with
    | none =>
      rw [hfind] at hex
      simp at hex
    | some t2 =>
      have ht2 : t2.id = hd := by
        have := List.find?_some hfind
        simpa using this
      simp only [List.filterMap_cons, hfind, List.map_cons]
      rw [ih (fun tid htid2 => hall tid (by simp [htid2]))]
      simp [serializeTag, ht2]

theorem ingredients_filterMap_find_ids {db : DB} :
    ∀ (l : List Nat), (∀ iid ∈ l, ∃ i ∈ db.ingredients, i.id = iid) →
      ((l.filterMap (fun iid => db.ingredients.find? (fun i => i.id == iid))).map
          (fun i => (serializeIngredient i).id)) = l := by
  intro l
  induction l with
  | nil =>
    intro _
    rfl
  | cons hd tl ih =>
    intro hall
    obtain ⟨i, himem, hiid⟩ := hall hd (by simp)
    have hex : ∃ x, x ∈ db.ingredients ∧ (fun i => i.id == hd) x = true :=
      ⟨i, himem, by simp [hiid]⟩
    rw [← List.find?_isSome] at hex
    cases hfind : db.ingredients.find? (fun i => i.id == hd) with
    | none =>
      rw [hfind] at hex
      simp at hex
    | some i2 =>
      have hi2 : i2.id = hd := by
        have := List.find?_some hfind
        simpa using this
      simp only [List.filterMap_cons, hfind, List.map_cons]
      rw [ih (fun iid hiid2 => hall iid (by simp [hiid2]))]
      simp [serializeIngredient, hi2]

/-- C6. Two-shape representation: the detail read of a recipe embeds full
tag and ingredient objects — each one a stored record of the database —
whose id projections are exactly the id-only references that the
list/write shape carries for the same recipe. -/
theorem c6_detail_vs_list_shape (db : DB) (u rid : Nat) (r : Recipe)
    (hfound : getOwnedRecipe db u rid = some r)
    (htags : ∀ tid ∈ r.tags, ∃ t ∈ db.tags, t.id = tid)
    (hings : ∀ iid ∈ r.ingredients, ∃ i ∈ db.ingredients, i.id = iid) :
    retrieveRecipeDetailApi db u rid = .ok (serializeRecipeDetail db r) ∧
    ((serializeRecipeDetail db r).tags.map TagOut.id = (serializeRecipe r).tagIds ∧
     (serializeRecipeDetail db r).ingredients.map IngredientOut.id =
       (serializeRecipe r).ingredientIds) ∧
    (∀ t ∈ (serializeRecipeDetail db r).tags, ∃ t0 ∈ db.tags, serializeTag t0 = t) ∧
    (∀ i ∈ (serializeRecipeDetail db r).ingredients,
      ∃ i0 ∈ db.ingredients, serializeIngredient i0 = i) ∧
    (serializeRecipe r).tagIds = r.tags ∧
    (serializeRecipe r).ingredientIds = r.ingredients := by
  refine ⟨?_, ⟨?_, ?_⟩, ?_, ?_, rfl, rfl⟩
  · unfold retrieveRecipeDetailApi
    rw [hfound]
  · have := @tags_filterMap_find_ids db r.tags htags
    simpa [serializeRecipeDetail, serializeRecipe, serializeTag, List.map_map,
      Function.comp] using this
  · have := @ingredients_filterMap_find_ids db r.ingredients hings
    simpa [serializeRecipeDetail, serializeRecipe, serializeIngredient, List.map_map,
      Function.comp] using this
  · intro t ht
    simp only [serializeRecipeDetail, List.mem_map] at ht
    obtain ⟨t0, ht0, rfl⟩ := ht
    rw [List.mem_filterMap] at ht0
    obtain ⟨tid, _, hfind⟩ := ht0
    exact ⟨t0, List.mem_of_find?_eq_some hfind, rfl⟩
  · intro i hi
    simp only [serializeRecipeDetail, List.mem_map] at hi
    obtain ⟨i0, hi0, rfl⟩ := hi
    rw [List.mem_filterMap] at hi0
    obtain ⟨iid, _, hfind⟩ := hi0
    exact ⟨i0, List.mem_of_find?_eq_some hfind, rfl⟩

/-- C6 witness: recipe 1 of the sample store, whose associated tag 1 and
ingredient 1 exist in the store. -/
theorem c6_detail_vs_list_shape_witness :
    getOwnedRecipe sampleDb 1 1 = some ⟨1, 1, "Soup", 10, 5, [1], [1], none⟩ ∧
    (∀ tid ∈ (⟨1, 1, "Soup", 10, 5, [1], [1], none⟩ : Recipe).tags,
      ∃ t ∈ sampleDb.tags, t.id = tid) ∧
    (∀ iid ∈ (⟨1, 1, "Soup", 10, 5, [1], [1], none⟩ : Recipe).ingredients,
      ∃ i ∈ sampleDb.ingredients, i.id = iid) ∧
    (retrieveRecipeDetailApi sampleDb 1 1 =
        .ok (serializeRecipeDetail sampleDb ⟨1, 1, "Soup", 10, 5, [1], [1], none⟩) ∧
      ((serializeRecipeDetail sampleDb ⟨1, 1, "Soup", 10, 5, [1], [1], none⟩).tags.map TagOut.id =
          (serializeRecipe ⟨1, 1, "Soup", 10, 5, [1], [1], none⟩).tagIds ∧
        (serializeRecipeDetail sampleDb ⟨1, 1, "Soup", 10, 5, [1], [1], none⟩).ingredients.map
            IngredientOut.id =
          (serializeRecipe ⟨1, 1, "Soup", 10, 5, [1], [1], none⟩).ingredientIds) ∧
      (∀ t ∈ (serializeRecipeDetail sampleDb ⟨1, 1, "Soup", 10, 5, [1], [1], none⟩).tags,
        ∃ t0 ∈ sampleDb.tags, serializeTag t0 = t) ∧
      (∀ i ∈ (serializeRecipeDetail sampleDb ⟨1, 1, "Soup", 10, 5, [1], [1], none⟩).ingredients,
        ∃ i0 ∈ sampleDb.ingredients, serializeIngredient i0 = i) ∧
      (serializeRecipe ⟨1, 1, "Soup", 10, 5, [1], [1], none⟩).tagIds =
        (⟨1, 1, "Soup", 10, 5, [1], [1], none⟩ : Recipe).tags ∧
      (serializeRecipe ⟨1, 1, "Soup", 10, 5, [1], [1], none⟩).ingredientIds =
        (⟨1, 1, "Soup", 10, 5, [1], [1], none⟩ : Recipe).ingredients) :=
  ⟨by decide, by decide, by decide,
   c6_detail_vs_list_shape sampleDb 1 1 ⟨1, 1, "Soup", 10, 5, [1], [1], none⟩
     (by decide) (by decide) (by decide)⟩

/-- Modelled from the spec: §4.3 — images are stored under a path derived
from the recipe's identifier. -/
def recipeImagePath (rid : Nat) : String :=
  String.append "uploads/recipe/" (String.append (toString rid) ".jpg")

/-- Modelled from the spec: §4.3 `upload_image(user, recipe_id, image_bytes)`
— not-found unless the recipe is owned by the user; validation error with
nothing persisted when the bytes are not a decodable image (decodability is
delegated to the image library and passed in as a predicate); on success the
image is stored under the id-derived path, any prior stored image file is
removed, and the recipe's image reference is updated. -/
def uploadImage (db : DB) (u rid : Nat) (decodable : List Nat → Bool)
    (bytes : List Nat) : DB × Except ApiError String :=
  match getOwnedRecipe db u rid with
  | none => (db, .error .notFound)
  | some r =>
    if decodable bytes then
      let path := recipeImagePath rid
      let files0 := match r.image with
        | some old => db.files.erase old
        | none => db.files
      let files1 := if path ∈ files0 then files0 else files0 ++ [path]
      ({ db with
          recipes := db.recipes.map
            (fun x => if x.id == rid && x.userId == u then { x with image := some path } else x)
          files := files1 },
       .ok path)
    else (db, .error .validation)

/-- C7. Image upload: not-found when the recipe is not owned by the caller;
a validation error with the store untouched (no file persisted) when the
bytes do not decode as an image; on success the endpoint returns the
id-derived path, that file exists, any previously stored image file (when
distinct from the new path) is gone, and the recipe's image reference now
holds the new path. -/
theorem c7_upload_image (db : DB) (u rid : Nat) (decodable : List Nat → Bool)
    (bytes : List Nat) :
    (getOwnedRecipe db u rid = none →
      uploadImage db u rid decodable bytes = (db, .error .notFound)) ∧
    (∀ r, getOwnedRecipe db u rid = some r → decodable bytes = false →
      uploadImage db u rid decodable bytes = (db, .error .validation)) ∧
    (∀ r, getOwnedRecipe db u rid = some r → decodable bytes = true →
      db.files.Nodup →
      (uploadImage db u rid decodable bytes).2 = .ok (recipeImagePath rid) ∧
      recipeImagePath rid ∈ (uploadImage db u rid decodable bytes).1.files ∧
      (∀ old, r.image = some old → old ≠ recipeImagePath rid →
        old ∉ (uploadImage db u rid decodable bytes).1.files) ∧
      (∃ x ∈ (uploadImage db u rid decodable bytes).1.recipes,
        x.id = rid ∧ x.userId = u ∧ x.image = some (recipeImagePath rid))) := by
  refine ⟨?_, ?_, ?_⟩
  · intro hnone
    unfold uploadImage
    rw [hnone]
  · intro r hfound hdec
    unfold uploadImage
    rw [hfound]
    simp [hdec]
  · intro r hfound hdec hnodup
    obtain ⟨hmem, huser, hid⟩ := getOwnedRecipe_eq_some hfound
    have hres : uploadImage db u rid decodable bytes =
        ({ db with
            recipes := db.recipes.map
              (fun x => if x.id == rid && x.userId == u then
                { x with image := some (recipeImagePath rid) } else x)
            files :=
              (if recipeImagePath rid ∈
                  (match r.image with
                    | some old => db.files.erase old
                    | none => db.files) then
                (match r.image with
                  | some old => db.files.erase old
                  | none => db.files)
              else
                (match r.image with
                  | some old => db.files.erase old
                  | none => db.files) ++ [recipeImagePath rid]) },
         .ok (recipeImagePath rid)) := by
      unfold uploadImage
      rw [hfound]
      simp [hdec]
    refine ⟨?_, ?_, ?_, ?_⟩
    · rw [hres]
    · rw [hres]
      by_cases hin : recipeImagePath rid ∈
          (match r.image with
            | some old => db.files.erase old
            | none => db.files)
      · simp [hin]
      · simp [hin]
    · intro old hold hne
      rw [hres]
      cases hcase : r.image with
      | none =>
        rw [hcase] at hold
        exact absurd hold (by simp)
      | some o =>
        rw [hcase] at hold
        have ho : o = old := Option.some.inj hold
        subst ho
        simp only
        intro hmem2
        by_cases hin : recipeImagePath rid ∈ db.files.erase o
        · rw [if_pos (by simpa using hin)] at hmem2
          have := (List.Nodup.mem_erase_iff hnodup).mp (by simpa using hmem2)
          exact this.1 rfl
        · rw [if_neg (by simpa using hin)] at hmem2
          rw [List.mem_append] at hmem2
          cases hmem2 with
          | inl hmem3 =>
            have := (List.Nodup.mem_erase_iff hnodup).mp hmem3
            exact this.1 rfl
          | inr hmem3 =>
            rw [List.mem_singleton] at hmem3
            exact hne hmem3
    · rw [hres]
      refine ⟨{ r with image := some (recipeImagePath rid) }, ?_, hid, huser, rfl⟩
      simp only [List.mem_map]
      refine ⟨r, hmem, ?_⟩
      rw [if_pos (by simp [hid, huser])]

/-- C7 witness: on the sample store, uploading to another user's recipe is
not-found, undecodable bytes give a validation error leaving the store
unchanged, and a successful upload stores the id-derived file. -/
theorem c7_upload_image_witness :
    ((getOwnedRecipe sampleDb 1 2 = none →
        uploadImage sampleDb 1 2 (fun _ => true) [1] = (sampleDb, .error .notFound)) ∧
      (∀ r, getOwnedRecipe sampleDb 1 2 = some r → (fun _ : List Nat => true) [1] = false →
        uploadImage sampleDb 1 2 (fun _ => true) [1] = (sampleDb, .error .validation)) ∧
      (∀ r, getOwnedRecipe sampleDb 1 2 = some r → (fun _ : List Nat => true) [1] = true →
        sampleDb.files.Nodup →
        (uploadImage sampleDb 1 2 (fun _ => true) [1]).2 = .ok (recipeImagePath 2) ∧
        recipeImagePath 2 ∈ (uploadImage sampleDb 1 2 (fun _ => true) [1]).1.files ∧
        (∀ old, r.image = some old → old ≠ recipeImagePath 2 →
          old ∉ (uploadImage sampleDb 1 2 (fun _ => true) [1]).1.files) ∧
        (∃ x ∈ (uploadImage sampleDb 1 2 (fun _ => true) [1]).1.recipes,
          x.id = 2 ∧ x.userId = 1 ∧ x.image = some (recipeImagePath 2)))) ∧
    ((getOwnedRecipe sampleDb 1 1 = none →
        uploadImage sampleDb 1 1 (fun _ => false) [1] = (sampleDb, .error .notFound)) ∧
      (∀ r, getOwnedRecipe sampleDb 1 1 = some r → (fun _ : List Nat => false) [1] = false →
        uploadImage sampleDb 1 1 (fun _ => false) [1] = (sampleDb, .error .validation)) ∧
      (∀ r, getOwnedRecipe sampleDb 1 1 = some r → (fun _ : List Nat => false) [1] = true →
        sampleDb.files.Nodup →
        (uploadImage sampleDb 1 1 (fun _ => false) [1]).2 = .ok (recipeImagePath 1) ∧
        recipeImagePath 1 ∈ (uploadImage sampleDb 1 1 (fun _ => false) [1]).1.files ∧
        (∀ old, r.image = some old → old ≠ recipeImagePath 1 →
          old ∉ (uploadImage sampleDb 1 1 (fun _ => false) [1]).1.files) ∧
        (∃ x ∈ (uploadImage sampleDb 1 1 (fun _ => false) [1]).1.recipes,
          x.id = 1 ∧ x.userId = 1 ∧ x.image = some (recipeImagePath 1)))) ∧
    ((getOwnedRecipe sampleDb 2 2 = none →
        uploadImage sampleDb 2 2 (fun _ => true) [1] = (sampleDb, .error .notFound)) ∧
      (∀ r, getOwnedRecipe sampleDb 2 2 = some r → (fun _ : List Nat => true) [1] = false →
        uploadImage sampleDb 2 2 (fun _ => true) [1] = (sampleDb, .error .validation)) ∧
      (∀ r, getOwnedRecipe sampleDb 2 2 = some r → (fun _ : List Nat => true) [1] = true →
        sampleDb.files.Nodup →
        (uploadImage sampleDb 2 2 (fun _ => true) [1]).2 = .ok (recipeImagePath 2) ∧
        recipeImagePath 2 ∈ (uploadImage sampleDb 2 2 (fun _ => true) [1]).1.files ∧
        (∀ old, r.image = some old → old ≠ recipeImagePath 2 →
          old ∉ (uploadImage sampleDb 2 2 (fun _ => true) [1]).1.files) ∧
        (∃ x ∈ (uploadImage sampleDb 2 2 (fun _ => true) [1]).1.recipes,
          x.id = 2 ∧ x.userId = 2 ∧ x.image = some (recipeImagePath 2)))) :=
  ⟨c7_upload_image sampleDb 1 2 (fun _ => true) [1],
   c7_upload_image sampleDb 1 1 (fun _ => false) [1],
   c7_upload_image sampleDb 2 2 (fun _ => true) [1]⟩

/-- C9. No orphaned image files: when a recipe owned by the caller has a
stored image file, a successful delete of the recipe removes that file from
the file store, and explicitly clearing the image also removes the file and
empties the recipe's image reference. -/
theorem c9_no_orphaned_files (db : DB) (u rid : Nat) (r : Recipe) (f : String)
    (hfound : getOwnedRecipe db u rid = some r)
    (himg : r.image = some f)
    (hnodup : db.files.Nodup) :
    ((deleteRecipe db u rid).2 = .ok () ∧ f ∉ (deleteRecipe db u rid).1.files) ∧
    ((clearImage db u rid).2 = .ok () ∧ f ∉ (clearImage db u rid).1.files ∧
      (∃ x ∈ (clearImage db u rid).1.recipes, x.id = rid ∧ x.userId = u ∧ x.image = none)) := by
  obtain ⟨hmem, huser, hid⟩ := getOwnedRecipe_eq_some hfound
  have herase : f ∉ db.files.erase f := fun hmem2 =>
    ((List.Nodup.mem_erase_iff hnodup).mp hmem2).1 rfl
  refine ⟨⟨?_, ?_⟩, ?_, ?_, ?_⟩
  · unfold deleteRecipe
    rw [hfound]
  · unfold deleteRecipe
    rw [hfound]
    simpa [himg] using herase
  · unfold clearImage
    rw [hfound]
  · unfold clearImage
    rw [hfound]
    simpa [himg] using herase
  · unfold clearImage
    rw [hfound]
    refine ⟨{ r with image := none }, ?_, hid, huser, rfl⟩
    simp only [List.mem_map]
    refine ⟨r, hmem, ?_⟩
    rw [if_pos (by simp [hid, huser])]

/-- C9 witness: recipe 2 of the sample store carries the stored image file;
deleting it or clearing the image removes the file. -/
theorem c9_no_orphaned_files_witness :
    getOwnedRecipe sampleDb 2 2 = some ⟨2, 2, "Cake", 20, 3, [2], [2], some "uploads/recipe/2.jpg"⟩ ∧
    (⟨2, 2, "Cake", 20, 3, [2], [2], some "uploads/recipe/2.jpg"⟩ : Recipe).image =
      some "uploads/recipe/2.jpg" ∧
    sampleDb.files.Nodup ∧
    (((deleteRecipe sampleDb 2 2).2 = .ok () ∧
        "uploads/recipe/2.jpg" ∉ (deleteRecipe sampleDb 2 2).1.files) ∧
      ((clearImage sampleDb 2 2).2 = .ok () ∧
        "uploads/recipe/2.jpg" ∉ (clearImage sampleDb 2 2).1.files ∧
        (∃ x ∈ (clearImage sampleDb 2 2).1.recipes,
          x.id = 2 ∧ x.userId = 2 ∧ x.image = none))) :=
  ⟨by decide, rfl, by decide,
   c9_no_orphaned_files sampleDb 2 2 ⟨2, 2, "Cake", 20, 3, [2], [2], some "uploads/recipe/2.jpg"⟩
     "uploads/recipe/2.jpg" (by decide) rfl (by decide)⟩

end RecipeApp
